import Mathlib

/-!
Verification of `src/api/suggest.ts` (browser-backend).

Shallow embedding of the suggestion endpoint: the node-cache store, the
daily cache-maintenance tick, `fetchBingSuggestions`, `fetchBingEntities`
(including the asynchronous enrichment callbacks that write the cache),
and the default request handler.

Modelling conventions:
* JSON values received from the upstream APIs are modelled by structures
  whose optional fields are `Option`; a JavaScript field access that would
  throw a `TypeError` (access on `undefined`) is modelled by an aborted
  computation (`Option.none` result for the enrichment callback, a
  `JsError.typeError` for the synchronous fetch).
* The asynchronous enrichment fetches are modelled by an oracle
  `responses : String → Option EntityJson` giving, per title, the JSON the
  enrichment fetch resolves to (`none` models a rejected fetch whose
  callback never runs).  Within one invocation the synchronous loop runs
  to completion before any callback fires (single-threaded event loop), so
  the model computes the returned results from the initial cache and then
  folds the callbacks over the cache.
* `console.error` output is collected in a `logs` list.
* Wall-clock time is an explicit `now : Nat` parameter of cache
  operations, used by the expiry bookkeeping of the store.
* The float literal `0.000001` of the maintenance task is modelled as the
  exact rational `1 / 1000000`.
-/

/-- Raw suggestion item of the upstream suggestion API
(`{displayText, url}`). -/
structure BingSuggestion where
  displayText : String
  url : String
deriving DecidableEq, Repr

/-- Normalized suggestion record (`EdgeSuggestion` in the source). -/
structure EdgeSuggestion where
  type : String
  title : String
  value : String
  entityImage : Option String := none
  subtitle2 : Option String := none
deriving DecidableEq, Repr

/-- One stored cache entry: key, value and the absolute expiry instant
(`none` = no expiry). -/
structure CacheEntry where
  key : String
  val : EdgeSuggestion
  expireAt : Option Nat
deriving DecidableEq, Repr

/-- Model of the `node-cache` store used on line 6 of the source
(`const cache = new NodeCache()`).  `set` without an explicit ttl applies
the instance default `stdTTL`; the library documents the default
`stdTTL` of a default-constructed instance as `0`, meaning unlimited (no
expiry). -/
structure NodeCache where
  entries : List CacheEntry
  stdTTL : Nat
deriving DecidableEq, Repr

/-- Construction `new NodeCache()`: empty store, default `stdTTL = 0` (unlimited). -/
def NodeCache.new : NodeCache := { entries := [], stdTTL := 0 }

/-- Lookup `cache.get(key)`: the stored value, provided it has not expired. -/
def NodeCache.get (c : NodeCache) (key : String) (now : Nat) : Option EdgeSuggestion :=
  match c.entries.find? (fun e => e.key == key) with
  | none => none
  | some e =>
    match e.expireAt with
    | none => some e.val
    | some t => if now < t then some e.val else none

/-- Write `cache.set(key, v)` (no per-call ttl): stores `v` under `key`,
stamping the expiry from the instance default `stdTTL`
(`0` = never expires). -/
def NodeCache.set (c : NodeCache) (key : String) (v : EdgeSuggestion) (now : Nat) : NodeCache :=
  { c with entries :=
      ⟨key, v, if c.stdTTL == 0 then none else some (now + c.stdTTL)⟩ ::
        c.entries.filter (fun e => e.key != key) }

/-- Flush `cache.flushAll()`: removes every entry. -/
def NodeCache.flushAll (c : NodeCache) : NodeCache := { c with entries := [] }

/-- Body of the `NodeCron.schedule('0 0 * * *', ...)` task (lines 8-12):
reads `vsize` and `ksize` from `cache.getStats()`, scales their sum by
`0.000001` and flushes the whole cache when the result exceeds `128`. -/
def maintenanceTick (vsize ksize : Nat) (c : NodeCache) : NodeCache :=
  let cacheSize : ℚ := ((vsize : ℚ) + (ksize : ℚ)) * (1 / 1000000)
  if cacheSize > 128 then c.flushAll else c

/-- Modelled from the spec: `ServerError` from `src/utils.js` (not under
`src/`): a classified error carrying an HTTP status code
("fail with a classified error carrying HTTP status ..."). -/
structure ServerError where
  message : String
  statusCode : Nat
deriving DecidableEq, Repr

/-- An exception escaping a `then` callback: either a classified
`ServerError` or a JavaScript `TypeError` from a field access on
`undefined`. -/
inductive JsError where
  | server (e : ServerError)
  | typeError
deriving DecidableEq, Repr

/-- Modelled from the spec: `throwServerError` from `src/utils.js` (not
under `src/`) throws a `ServerError` with the given message and HTTP
status code. -/
def throwServerError (message : String) (statusCode : Nat) : Except JsError α :=
  .error (.server ⟨message, statusCode⟩)

/-- One `suggestionGroups` element; `searchSuggestions` may be absent
(the source guards it with `|| []`). -/
structure SuggestionGroup where
  searchSuggestions : Option (List BingSuggestion)
deriving DecidableEq, Repr

/-- JSON body the suggestion API resolves to: the `_type` tag, the error
codes `errors[i].code` of an error envelope, and the suggestion groups.
An absent `errors` or `suggestionGroups` field is modelled by the empty
list (indexing it at 0 throws either way). -/
structure SuggestJson where
  jsonType : String
  errors : List String
  suggestionGroups : List SuggestionGroup
deriving DecidableEq, Repr

/-- Function `fetchBingSuggestions` (lines 27-55), applied to the JSON the fetch
resolved to: throws a 429 `ServerError` on a rate-limit error envelope,
throws a `TypeError` where the JavaScript field accesses
(`json.errors[0].code`, `json.suggestionGroups[0].searchSuggestions`)
would, and otherwise maps every raw suggestion to a `type: "search"`
record. -/
def fetchBingSuggestions (json : SuggestJson) : Except JsError (List EdgeSuggestion) :=
  let rateLimitCheck : Except JsError Unit :=
    if json.jsonType == "ErrorResponse" then
      match json.errors.head? with
      | none => .error .typeError
      | some code =>
        if code == "RateLimitExceeded" then
          throwServerError "Bing autosuggest API rate limit exceeded" 429
        else .ok ()
    else .ok ()
  rateLimitCheck.bind fun _ =>
    match json.suggestionGroups.head? with
    | none => .error .typeError
    | some group =>
      .ok ((group.searchSuggestions.getD []).map fun s =>
        { type := "search", title := s.displayText, value := s.url })

/-- Field `entityPresentationInfo` of an entity
(`{entityScenario, entityTypeDisplayHint}`; the scenario tag field models
`entityScenario`). -/
structure PresentationInfo where
  scenarioTag : String
  entityTypeDisplayHint : Option String
deriving DecidableEq, Repr

/-- One element of `entities.value`.  `image` holds the `thumbnailUrl`
when present; `entityPresentationInfo` may be absent. -/
structure BingEntity where
  name : String
  webSearchUrl : String
  image : Option String := none
  entityPresentationInfo : Option PresentationInfo := none
deriving DecidableEq, Repr

/-- JSON body the entity-search fetch resolves to: `_type` tag, error
codes, and the optional `entities` object holding its `value` list. -/
structure EntityJson where
  jsonType : String
  errors : List String
  entities : Option (List BingEntity)
deriving DecidableEq, Repr

/-- The entity-selection branch of the enrichment callback
(lines 89-107): reads `entities.value[0] || {}` and, when the first
entity is a `DominantEntity` whose name case-insensitively equals the
suggestion title, builds the enriched record; otherwise keeps the
original.  `none` models a thrown `TypeError`: the empty-object fallback
(`value` empty) and a missing `entityPresentationInfo` both make
`entity.entityPresentationInfo.entityScenario` throw. -/
def entityBody (title : String) (orig : EdgeSuggestion) (json : EntityJson) :
    Option EdgeSuggestion :=
  match json.entities with
  | none => some orig
  | some value =>
    match value.head? with
    | none => none
    | some entity =>
      match entity.entityPresentationInfo with
      | none => none
      | some info =>
        if info.scenarioTag == "DominantEntity"
            && entity.name.toLower == title.toLower then
          some { type := "entity", title := entity.name, value := entity.webSearchUrl,
                 entityImage := entity.image, subtitle2 := info.entityTypeDisplayHint }
        else some orig

/-- The whole `then` callback of an enrichment fetch (lines 83-112):
logs on a rate-limit error envelope (the access `json.errors[0].code`
itself throwing when `errors` is empty), then runs the entity-selection
branch.  Returns the `console.error` output and the value passed to
`cache.set` (`none` when the callback threw before reaching it). -/
def entityCallback (title : String) (orig : EdgeSuggestion) (json : EntityJson) :
    List String × Option EdgeSuggestion :=
  if json.jsonType == "ErrorResponse" then
    match json.errors.head? with
    | none => ([], none)
    | some code =>
      if code == "RateLimitExceeded" then
        (["Bing search API rate limit exceeded"], entityBody title orig json)
      else ([], entityBody title orig json)
  else ([], entityBody title orig json)

/-- The synchronous `for` loop of `fetchBingEntities` (lines 60-72):
per slot, the cached value on a hit, the original suggestion on a miss;
`fullyEnhanced` is cleared on any miss; misses (in order) are the slots
whose enrichment fetch is issued. -/
def entityLoop (c : NodeCache) (now : Nat) :
    List EdgeSuggestion → List EdgeSuggestion × Bool × List EdgeSuggestion
  | [] => ([], true, [])
  | s :: rest =>
    let (rs, fe, ms) := entityLoop c now rest
    match c.get s.title now with
    | some v => (v :: rs, fe, ms)
    | none => (s :: rs, false, s :: ms)

/-- Resolution of the pending enrichment callbacks: for each missed
suggestion, the fetch either rejects (`responses` gives `none`; the
callback never runs) or resolves and the callback writes `cache.set`
unless it threw.  Logs are accumulated in order. -/
def applyCallbacks (now : Nat) (responses : String → Option EntityJson)
    (misses : List EdgeSuggestion) (c : NodeCache) (logs : List String) :
    NodeCache × List String :=
  match misses with
  | [] => (c, logs)
  | s :: rest =>
    match responses s.title with
    | none => applyCallbacks now responses rest c logs
    | some json =>
      let (log, written) := entityCallback s.title s json
      match written with
      | some v => applyCallbacks now responses rest (c.set s.title v now) (logs ++ log)
      | none => applyCallbacks now responses rest c (logs ++ log)

/-- Everything observable about one `fetchBingEntities` call: the
returned pair, the titles whose enrichment fetch was issued, the
`console.error` output of the callbacks, and the cache once every
callback has resolved. -/
structure EntityFetchOutcome where
  results : List EdgeSuggestion
  fullyEnhanced : Bool
  fetchedTitles : List String
  logs : List String
  cacheAfter : NodeCache
deriving Repr

/-- Function `fetchBingEntities` (lines 59-118) together with the later resolution
of its fire-and-forget callbacks.  The returned `results` and
`fullyEnhanced` are computed by the synchronous loop against the initial
cache; the callbacks only mutate the cache afterwards (the local
`results[x]` they read has kept the value `suggestions[x]` of the miss). -/
def fetchBingEntities (c : NodeCache) (now : Nat) (suggestions : List EdgeSuggestion)
    (responses : String → Option EntityJson) : EntityFetchOutcome :=
  let (results, fullyEnhanced, misses) := entityLoop c now suggestions
  let (cacheAfter, logs) := applyCallbacks now responses misses c []
  { results := results, fullyEnhanced := fullyEnhanced,
    fetchedTitles := misses.map (fun s => s.title), logs := logs,
    cacheAfter := cacheAfter }

/-- Everything observable about one request: the HTTP status sent
(`sendStatus` on the catch path, the implicit 200 of `res.json`; `none`
models the silent fallthrough on an unclassified error), headers, the
JSON body `{q, suggestions}`, whether the suggestion API was called, the
entity fetches issued, the cache after all callbacks, and log output. -/
structure HandlerResult where
  status : Option Nat
  headers : List (String × String)
  body : Option (String × List EdgeSuggestion)
  suggestCalled : Bool
  entityFetches : List String
  cacheAfter : NodeCache
  logs : List String
deriving Repr

/-- The default export (lines 120-142): validate `q`, validate
`BING_APP_ID`, fetch suggestions, optionally enrich when
`enhance === 'true'`, set the one-day public `Cache-Control` header when
fully enhanced, answer with `res.json({q, suggestions})`; classified
errors reach `sendStatus(statusCode || 500)`, a `TypeError` is logged and
answered with no status at all. -/
def handler (q enhance appId : Option String) (c : NodeCache) (now : Nat)
    (suggestJson : SuggestJson) (responses : String → Option EntityJson) : HandlerResult :=
  match q with
  | none =>
    { status := some 400, headers := [], body := none, suggestCalled := false,
      entityFetches := [], cacheAfter := c,
      logs := ["Missing query parameter \"q\""] }
  | some qv =>
    match appId with
    | none =>
      { status := some 500, headers := [], body := none, suggestCalled := false,
        entityFetches := [], cacheAfter := c,
        logs := ["Missing BING_APP_ID environment variable"] }
    | some _ =>
      match fetchBingSuggestions suggestJson with
      | .error (.server e) =>
        { status := some (if e.statusCode == 0 then 500 else e.statusCode),
          headers := [], body := none, suggestCalled := true,
          entityFetches := [], cacheAfter := c, logs := [e.message] }
      | .error .typeError =>
        { status := none, headers := [], body := none, suggestCalled := true,
          entityFetches := [], cacheAfter := c, logs := ["TypeError"] }
      | .ok suggestions =>
        if enhance == some "true" then
          let o := fetchBingEntities c now suggestions responses
          { status := some 200,
            headers :=
              if o.fullyEnhanced then [("Cache-Control", "public, max-age=86400")] else [],
            body := some (qv, o.results), suggestCalled := true,
            entityFetches := o.fetchedTitles, cacheAfter := o.cacheAfter,
            logs := o.logs }
        else
          { status := some 200,
            headers := [("Cache-Control", "public, max-age=86400")],
            body := some (qv, suggestions), suggestCalled := true,
            entityFetches := [], cacheAfter := c, logs := [] }

/-- Spec-side predicate for C3: the resolved entity response carries a
first entity that is a `DominantEntity` whose name case-insensitively
equals the suggestion title (the condition of lines 91-96). -/
def matchesDominant (json : EntityJson) (title : String) : Bool :=
  match json.entities with
  | none => false
  | some value =>
    match value.head? with
    | none => false
    | some entity =>
      match entity.entityPresentationInfo with
      | none => false
      | some info =>
        info.scenarioTag == "DominantEntity" && entity.name.toLower == title.toLower

/-- Sample plain suggestion used by concrete witnesses. -/
def sampleSuggestion : EdgeSuggestion :=
  { type := "search", title := "paris", value := "https://www.bing.com/search?q=paris" }

/-- Sample resolved entity response with no `entities` field. -/
def noEntitiesJson : EntityJson :=
  { jsonType := "SearchResponse", errors := [], entities := none }

/-- Sample rate-limit error envelope of the entity API. -/
def rateLimitJson : EntityJson :=
  { jsonType := "ErrorResponse", errors := ["RateLimitExceeded"], entities := none }

/-- Sample error envelope of the entity API whose code is not the
rate-limit one. -/
def otherErrorJson : EntityJson :=
  { jsonType := "ErrorResponse", errors := ["ServerError"], entities := none }

/-- Sample resolved entity response whose first entity is not marked
`DominantEntity` (so it does not match any title). -/
def mismatchedEntityJson : EntityJson :=
  { jsonType := "SearchResponse", errors := [],
    entities := some [{ name := "London", webSearchUrl := "https://b/l",
                        image := none,
                        entityPresentationInfo := some ⟨"DisambiguationItem", some "City"⟩ }] }

/-- Sample resolved entity response with an empty `entities.value`. -/
def emptyEntitiesJson : EntityJson :=
  { jsonType := "SearchResponse", errors := [], entities := some [] }

/-- Sample resolved entity response whose first entity lacks
`entityPresentationInfo`. -/
def noInfoEntityJson : EntityJson :=
  { jsonType := "SearchResponse", errors := [],
    entities := some [{ name := "Paris", webSearchUrl := "https://b/p" }] }

/-! ## Helper lemmas -/

/-- Closed form of the synchronous loop: slots, the all-hits flag, and
the missed slots. -/
theorem entityLoop_eq (c : NodeCache) (now : Nat) (l : List EdgeSuggestion) :
    entityLoop c now l =
      (l.map (fun s => (c.get s.title now).getD s),
       l.all (fun s => (c.get s.title now).isSome),
       l.filter (fun s => (c.get s.title now).isNone)) := by
  induction l with
  | nil => rfl
  | cons s rest ih =>
    simp only [entityLoop, ih]
    cases h : c.get s.title now <;>
      simp [List.all_cons, List.filter_cons, h]

/-- On a store whose default ttl is 0 (the source's `new NodeCache()`),
a freshly set entry is returned by `get` at every later instant. -/
theorem NodeCache.get_set_self (c : NodeCache) (h : c.stdTTL = 0) (key : String)
    (v : EdgeSuggestion) (now t : Nat) : (c.set key v now).get key t = some v := by
  simp [NodeCache.get, NodeCache.set, h, List.find?_cons]

/-! ## Claims -/

/-- C1: `fetchBingEntities` returns a sequence of the same length and in
the same order where slot `i` is the cached entry for
`suggestions[i].title` when a cache hit exists and the original
`suggestions[i]` otherwise, together with a boolean that is true if and
only if every slot was a cache hit. -/
theorem fetchBingEntities_merge_spec (c : NodeCache) (now : Nat)
    (suggestions : List EdgeSuggestion) (responses : String → Option EntityJson) :
    (fetchBingEntities c now suggestions responses).results.length = suggestions.length ∧
    (∀ i : Fin suggestions.length,
      (fetchBingEntities c now suggestions responses).results.get? i.val =
        some (match c.get (suggestions.get i).title now with
              | some v => v
              | none => suggestions.get i)) ∧
    ((fetchBingEntities c now suggestions responses).fullyEnhanced = true ↔
      ∀ i : Fin suggestions.length, (c.get (suggestions.get i).title now).isSome = true) := by
  have hres : (fetchBingEntities c now suggestions responses).results =
      suggestions.map (fun s => (c.get s.title now).getD s) := by
    simp [fetchBingEntities, entityLoop_eq]
  have hfe : (fetchBingEntities c now suggestions responses).fullyEnhanced =
      suggestions.all (fun s => (c.get s.title now).isSome) := by
    simp [fetchBingEntities, entityLoop_eq]
  refine ⟨?_, ?_, ?_⟩
  · rw [hres, List.length_map]
  · intro i
    rw [hres, List.get?_map, List.get?_eq_get i.isLt]
    simp only [List.get_eq_getElem]
    cases h : c.get (suggestions[i.val]).title now <;> simp [h]
  · rw [hfe, List.all_eq_true]
    constructor
    · intro h i
      exact h _ (List.get_mem suggestions i.val i.isLt)
    · intro h x hx
      obtain ⟨i, rfl⟩ := List.mem_iff_get.mp hx
      exact h i

/-- C5: at a maintenance tick, a footprint above 128 MB empties the
cache and any other footprint leaves it untouched. -/
theorem maintenanceTick_spec (vsize ksize : Nat) (c : NodeCache) :
    (vsize + ksize > 128000000 → (maintenanceTick vsize ksize c).entries = []) ∧
    (vsize + ksize ≤ 128000000 → maintenanceTick vsize ksize c = c) := by
  have key : (((vsize : ℚ) + (ksize : ℚ)) * (1 / 1000000) > 128) ↔
      vsize + ksize > 128000000 := by
    rw [gt_iff_lt, mul_one_div, lt_div_iff (by norm_num : (0:ℚ) < 1000000)]
    constructor
    · intro h
      have : ((128000000 : ℕ) : ℚ) < ((vsize + ksize : ℕ) : ℚ) := by push_cast; linarith
      exact_mod_cast this
    · intro h
      have : ((128000000 : ℕ) : ℚ) < ((vsize + ksize : ℕ) : ℚ) := by exact_mod_cast h
      push_cast at this
      linarith
  constructor
  · intro h
    unfold maintenanceTick
    rw [if_pos (key.mpr h)]
    rfl
  · intro h
    unfold maintenanceTick
    rw [if_neg]
    intro hgt
    exact absurd (key.mp hgt) (not_lt.mpr h)

/-- Witness for C5 at concrete stats: 200000001 bytes flushes a
one-entry cache; 7 bytes leaves the empty cache unchanged. -/
theorem maintenanceTick_spec_witness :
    (maintenanceTick 200000001 0
      { entries := [⟨"paris", sampleSuggestion, none⟩], stdTTL := 0 }).entries = [] ∧
    maintenanceTick 3 4 NodeCache.new = NodeCache.new :=
  ⟨(maintenanceTick_spec 200000001 0 _).1 (by norm_num),
   (maintenanceTick_spec 3 4 NodeCache.new).2 (by norm_num)⟩

/-- C7: with the query parameter `q` absent the handler answers status
400, calls the suggestion API never, and issues no entity fetch. -/
theorem handler_missing_q (enhance appId : Option String) (c : NodeCache) (now : Nat)
    (suggestJson : SuggestJson) (responses : String → Option EntityJson) :
    (handler none enhance appId c now suggestJson responses).status = some 400 ∧
    (handler none enhance appId c now suggestJson responses).suggestCalled = false ∧
    (handler none enhance appId c now suggestJson responses).entityFetches = [] :=
  ⟨rfl, rfl, rfl⟩

/-- C2: a primary suggestion fetch resolving to a `RateLimitExceeded`
error envelope makes the handler answer status 429 with no entity-search
request issued. -/
theorem handler_rate_limited (qv a : String) (enhance : Option String) (c : NodeCache)
    (now : Nat) (json : SuggestJson) (responses : String → Option EntityJson)
    (htype : json.jsonType = "ErrorResponse")
    (hcode : json.errors.head? = some "RateLimitExceeded") :
    (handler (some qv) enhance (some a) c now json responses).status = some 429 ∧
    (handler (some qv) enhance (some a) c now json responses).entityFetches = [] := by
  have hfetch : fetchBingSuggestions json =
      .error (.server ⟨"Bing autosuggest API rate limit exceeded", 429⟩) := by
    simp [fetchBingSuggestions, htype, hcode, throwServerError, Except.bind]
  refine ⟨?_, ?_⟩ <;> simp [handler, hfetch]

/-- Closed witness for C2: a concrete rate-limited envelope yields 429
and an empty entity-fetch list. -/
theorem handler_rate_limited_witness :
    (handler (some "paris") (some "true") (some "appid") NodeCache.new 0
      { jsonType := "ErrorResponse", errors := ["RateLimitExceeded"], suggestionGroups := [] }
      (fun _ => none)).status = some 429 ∧
    (handler (some "paris") (some "true") (some "appid") NodeCache.new 0
      { jsonType := "ErrorResponse", errors := ["RateLimitExceeded"], suggestionGroups := [] }
      (fun _ => none)).entityFetches = [] :=
  handler_rate_limited "paris" "appid" (some "true") NodeCache.new 0 _ _ rfl rfl

/-- C6: a successful suggestion response with `enhance` unset makes the
handler answer status 200 with exactly the upstream items mapped in order
to `{type := "search", title := displayText, value := url}` and a
one-day public `Cache-Control` header. -/
theorem handler_plain_success (qv a : String) (c : NodeCache) (now : Nat)
    (raw : List BingSuggestion) (json : SuggestJson)
    (responses : String → Option EntityJson)
    (htype : json.jsonType ≠ "ErrorResponse")
    (hgroups : json.suggestionGroups.head? = some ⟨some raw⟩) :
    (handler (some qv) none (some a) c now json responses).status = some 200 ∧
    (handler (some qv) none (some a) c now json responses).body =
      some (qv, raw.map fun s =>
        { type := "search", title := s.displayText, value := s.url,
          entityImage := none, subtitle2 := none }) ∧
    ((handler (some qv) none (some a) c now json responses).body.map
        fun b => b.2.length) = some raw.length ∧
    (handler (some qv) none (some a) c now json responses).headers =
      [("Cache-Control", "public, max-age=86400")] := by
  have hfetch : fetchBingSuggestions json = .ok (raw.map fun s =>
      { type := "search", title := s.displayText, value := s.url }) := by
    simp [fetchBingSuggestions, htype, hgroups, Except.bind]
  refine ⟨?_, ?_, ?_, ?_⟩ <;> simp [handler, hfetch]

/-- Closed witness for C6 at two concrete upstream items. -/
theorem handler_plain_success_witness :
    (handler (some "pa") none (some "appid") NodeCache.new 0
      { jsonType := "Suggestions", errors := [],
        suggestionGroups := [⟨some [⟨"paris", "https://b/p"⟩, ⟨"patagonia", "https://b/t"⟩]⟩] }
      (fun _ => none)).body =
      some ("pa",
        [{ type := "search", title := "paris", value := "https://b/p",
           entityImage := none, subtitle2 := none },
         { type := "search", title := "patagonia", value := "https://b/t",
           entityImage := none, subtitle2 := none }]) ∧
    (handler (some "pa") none (some "appid") NodeCache.new 0
      { jsonType := "Suggestions", errors := [],
        suggestionGroups := [⟨some [⟨"paris", "https://b/p"⟩, ⟨"patagonia", "https://b/t"⟩]⟩] }
      (fun _ => none)).headers = [("Cache-Control", "public, max-age=86400")] :=
  ⟨((handler_plain_success "pa" "appid" NodeCache.new 0
      [⟨"paris", "https://b/p"⟩, ⟨"patagonia", "https://b/t"⟩]
      { jsonType := "Suggestions", errors := [],
        suggestionGroups := [⟨some [⟨"paris", "https://b/p"⟩, ⟨"patagonia", "https://b/t"⟩]⟩] }
      (fun _ => none) (by decide) rfl).2.1),
   ((handler_plain_success "pa" "appid" NodeCache.new 0
      [⟨"paris", "https://b/p"⟩, ⟨"patagonia", "https://b/t"⟩]
      { jsonType := "Suggestions", errors := [],
        suggestionGroups := [⟨some [⟨"paris", "https://b/p"⟩, ⟨"patagonia", "https://b/t"⟩]⟩] }
      (fun _ => none) (by decide) rfl).2.2.2)⟩
/-- Whatever branch the rate-limit check takes, a callback that reaches
`cache.set` passes it the value computed by the entity-selection
branch. -/
theorem entityCallback_snd_of_some (title : String) (orig : EdgeSuggestion)
    (json : EntityJson) (y : EdgeSuggestion)
    (h : (entityCallback title orig json).2 = some y) :
    entityBody title orig json = some y := by
  unfold entityCallback at h
  split at h
  · cases he : json.errors.head? with
    | none => rw [he] at h; simp at h
    | some code =>
      rw [he] at h
      dsimp only at h
      split at h <;> simpa using h
  · simpa using h

/-- C3: a resolved enrichment response without a matching dominant
entity that completes its callback writes exactly the original
suggestion, and a later cache lookup for that title (at any instant, on
the no-default-expiry store of the source) surfaces exactly that
original suggestion. -/
theorem entityCallback_mismatch_roundtrip (title : String) (orig v : EdgeSuggestion)
    (json : EntityJson) (c : NodeCache) (now : Nat) (logs : List String)
    (hres : entityCallback title orig json = (logs, some v))
    (hmis : matchesDominant json title = false)
    (httl : c.stdTTL = 0) :
    v = orig ∧ ∀ t, (c.set title v now).get title t = some orig := by
  have hbody : entityBody title orig json = some v :=
    entityCallback_snd_of_some title orig json v (by rw [hres])
  have hv : v = orig := by
    cases hent : json.entities with
    | none =>
      simp only [entityBody, hent, Option.some.injEq] at hbody
      exact hbody.symm
    | some value =>
      cases hh : value.head? with
      | none => simp [entityBody, hent, hh] at hbody
      | some entity =>
        cases hinfo : entity.entityPresentationInfo with
        | none => simp [entityBody, hent, hh, hinfo] at hbody
        | some info =>
          simp only [entityBody, hent, hh, hinfo] at hbody
          split at hbody
          · rename_i hcond
            have hdom : matchesDominant json title = true := by
              simp [matchesDominant, hent, hh, hinfo, hcond]
            rw [hdom] at hmis
            exact absurd hmis (by simp)
          · simpa using hbody.symm
  refine ⟨hv, fun t => ?_⟩
  rw [NodeCache.get_set_self c httl title v now t, hv]

/-- Closed witness for C3: a non-dominant entity returned for the title
`paris` round-trips the plain suggestion through the cache. -/
theorem entityCallback_mismatch_roundtrip_witness :
    sampleSuggestion = sampleSuggestion ∧
    (NodeCache.new.set "paris" sampleSuggestion 3).get "paris" 1000000 =
      some sampleSuggestion :=
  ⟨(entityCallback_mismatch_roundtrip "paris" sampleSuggestion sampleSuggestion
      mismatchedEntityJson NodeCache.new 3 [] (by decide) (by decide) rfl).1,
   (entityCallback_mismatch_roundtrip "paris" sampleSuggestion sampleSuggestion
      mismatchedEntityJson NodeCache.new 3 [] (by decide) (by decide) rfl).2 1000000⟩

/-- A rate-limit error envelope makes the callback log exactly the
rate-limit message. -/
theorem entityCallback_fst_rate_limit (title : String) (orig : EdgeSuggestion)
    (json : EntityJson) (ht : json.jsonType = "ErrorResponse")
    (hc : json.errors.head? = some "RateLimitExceeded") :
    (entityCallback title orig json).1 = ["Bing search API rate limit exceeded"] := by
  unfold entityCallback
  rw [ht, hc]
  simp

/-- The log list already accumulated is a prefix of the log list after
all remaining callbacks have resolved. -/
theorem applyCallbacks_logs_prefix (now : Nat) (r : String → Option EntityJson)
    (ms : List EdgeSuggestion) :
    ∀ (c : NodeCache) (logs : List String),
      ∃ tail, (applyCallbacks now r ms c logs).2 = logs ++ tail := by
  induction ms with
  | nil => intro c logs; exact ⟨[], by simp [applyCallbacks]⟩
  | cons s rest ih =>
    intro c logs
    unfold applyCallbacks
    cases hr : r s.title with
    | none => exact ih c logs
    | some json =>
      dsimp only
      rcases hcb : entityCallback s.title s json with ⟨log, written⟩
      dsimp only
      cases written with
      | some v =>
        obtain ⟨t2, ht2⟩ := ih (c.set s.title v now) (logs ++ log)
        exact ⟨log ++ t2, by rw [ht2, List.append_assoc]⟩
      | none =>
        obtain ⟨t2, ht2⟩ := ih c (logs ++ log)
        exact ⟨log ++ t2, by rw [ht2, List.append_assoc]⟩

/-- A missed suggestion whose enrichment fetch resolves to a rate-limit
envelope contributes the rate-limit message to the accumulated logs. -/
theorem mem_applyCallbacks_logs (now : Nat) (r : String → Option EntityJson)
    (ms : List EdgeSuggestion) :
    ∀ (c : NodeCache) (logs : List String) (s : EdgeSuggestion) (json : EntityJson),
      s ∈ ms → r s.title = some json →
      (entityCallback s.title s json).1 = ["Bing search API rate limit exceeded"] →
      "Bing search API rate limit exceeded" ∈ (applyCallbacks now r ms c logs).2 := by
  induction ms with
  | nil => intro c logs s json hs; exact absurd hs (List.not_mem_nil s)
  | cons a rest ih =>
    intro c logs s json hs hr hlog
    rcases List.mem_cons.mp hs with rfl | hs2
    · unfold applyCallbacks
      rw [hr]
      dsimp only
      rcases hcb : entityCallback s.title s json with ⟨log, written⟩
      dsimp only
      have hlog2 : log = ["Bing search API rate limit exceeded"] := by
        rw [hcb] at hlog; exact hlog
      cases written with
      | some v =>
        obtain ⟨tail, htail⟩ :=
          applyCallbacks_logs_prefix now r rest (c.set s.title v now) (logs ++ log)
        rw [htail, hlog2]
        simp
      | none =>
        obtain ⟨tail, htail⟩ := applyCallbacks_logs_prefix now r rest c (logs ++ log)
        rw [htail, hlog2]
        simp
    · unfold applyCallbacks
      cases hra : r a.title with
      | none => exact ih c logs s json hs2 hr hlog
      | some json2 =>
        dsimp only
        rcases hcb : entityCallback a.title a json2 with ⟨log, written⟩
        dsimp only
        cases written with
        | some v => exact ih (c.set a.title v now) (logs ++ log) s json hs2 hr hlog
        | none => exact ih c (logs ++ log) s json hs2 hr hlog

/-- C4 (amended): a rate-limit enrichment response for a missed title is
logged, and no enrichment response — failure envelope, thrown callback
or rejected fetch — is raised to the caller or changes the returned
suggestion sequence or flag: they are identical under every response
oracle. -/
theorem fetchBingEntities_rate_limit_logged_response_independent
    (c : NodeCache) (now : Nat) (sugg : List EdgeSuggestion)
    (r r2 : String → Option EntityJson) (s : EdgeSuggestion) (json : EntityJson)
    (hs : s ∈ sugg) (hmiss : c.get s.title now = none)
    (hr : r s.title = some json)
    (ht : json.jsonType = "ErrorResponse")
    (hc : json.errors.head? = some "RateLimitExceeded") :
    "Bing search API rate limit exceeded" ∈ (fetchBingEntities c now sugg r).logs ∧
    (fetchBingEntities c now sugg r).results = (fetchBingEntities c now sugg r2).results ∧
    (fetchBingEntities c now sugg r).fullyEnhanced =
      (fetchBingEntities c now sugg r2).fullyEnhanced := by
  refine ⟨?_, ?_, ?_⟩
  · have hmem : s ∈ sugg.filter (fun x => (c.get x.title now).isNone) :=
      List.mem_filter.mpr ⟨hs, by simp [hmiss]⟩
    have hlogs : (fetchBingEntities c now sugg r).logs =
        (applyCallbacks now r (sugg.filter fun x => (c.get x.title now).isNone) c []).2 := by
      simp [fetchBingEntities, entityLoop_eq]
    rw [hlogs]
    exact mem_applyCallbacks_logs now r _ c [] s json hmem hr
      (entityCallback_fst_rate_limit s.title s json ht hc)
  · simp [fetchBingEntities, entityLoop_eq]
  · simp [fetchBingEntities, entityLoop_eq]

/-- Counterexample to C4 as stated: an enrichment failure response whose
code is not the rate-limit one (here `ServerError`) is an error envelope
the callback does not log at all — it proceeds silently and caches the
plain suggestion. -/
theorem entityCallback_failure_unlogged :
    otherErrorJson.jsonType = "ErrorResponse" ∧
    entityCallback "paris" sampleSuggestion otherErrorJson = ([], some sampleSuggestion) := by
  decide

/-- Closed witness for C4 (amended) at a concrete rate-limited
enrichment response. -/
theorem fetchBingEntities_rate_limit_logged_witness :
    "Bing search API rate limit exceeded" ∈
      (fetchBingEntities NodeCache.new 0 [sampleSuggestion]
        (fun _ => some rateLimitJson)).logs :=
  (fetchBingEntities_rate_limit_logged_response_independent NodeCache.new 0
    [sampleSuggestion] (fun _ => some rateLimitJson) (fun _ => none) sampleSuggestion
    rateLimitJson (List.mem_singleton.mpr rfl) rfl rfl rfl rfl).1

/-- Resolving callbacks on a store with default ttl 0 whose entries all
lack an expiry keeps every entry expiry-free. -/
theorem applyCallbacks_preserves_no_expiry (now : Nat) (r : String → Option EntityJson)
    (ms : List EdgeSuggestion) :
    ∀ (c : NodeCache) (logs : List String),
      c.stdTTL = 0 → (∀ e ∈ c.entries, e.expireAt = none) →
      ((applyCallbacks now r ms c logs).1.stdTTL = 0 ∧
        ∀ e ∈ (applyCallbacks now r ms c logs).1.entries, e.expireAt = none) := by
  induction ms with
  | nil => intro c logs h0 h1; exact ⟨h0, h1⟩
  | cons s rest ih =>
    intro c logs h0 h1
    unfold applyCallbacks
    cases hr : r s.title with
    | none => exact ih c logs h0 h1
    | some json =>
      dsimp only
      rcases hcb : entityCallback s.title s json with ⟨log, written⟩
      dsimp only
      cases written with
      | none => exact ih c (logs ++ log) h0 h1
      | some v =>
        apply ih
        · exact h0
        · intro e he
          simp only [NodeCache.set, h0, List.mem_cons] at he
          rcases he with rfl | he2
          · rfl
          · exact h1 e (List.mem_of_mem_filter he2)

/-- C8 (amended): every entry in the cache after the enrichment
callbacks have resolved carries no expiry at all, provided the store is
the default-constructed one of the source (default ttl 0 and no expiring
entries): the enrichment path never attaches a time-to-live. -/
theorem fetchBingEntities_cacheAfter_no_expiry (c : NodeCache) (now : Nat)
    (sugg : List EdgeSuggestion) (r : String → Option EntityJson)
    (h0 : c.stdTTL = 0) (h1 : ∀ e ∈ c.entries, e.expireAt = none) :
    ∀ e ∈ (fetchBingEntities c now sugg r).cacheAfter.entries, e.expireAt = none := by
  have hca : (fetchBingEntities c now sugg r).cacheAfter =
      (applyCallbacks now r (sugg.filter fun x => (c.get x.title now).isNone) c []).1 := by
    simp [fetchBingEntities, entityLoop_eq]
  rw [hca]
  exact (applyCallbacks_preserves_no_expiry now r _ c [] h0 h1).2

/-- Counterexample to C8 as stated: the cache entry written by the
enrichment path for a concrete missed title has no expiry
(`expireAt = none`), and the entry is still served arbitrarily far in
the future (here at instant 1000000000) — no finite time-to-live bounds
its lifetime. -/
theorem enrichment_write_no_ttl_counterexample :
    ((fetchBingEntities NodeCache.new 0 [sampleSuggestion]
        (fun _ => some noEntitiesJson)).cacheAfter).entries =
      [⟨"paris", sampleSuggestion, none⟩] ∧
    ((fetchBingEntities NodeCache.new 0 [sampleSuggestion]
        (fun _ => some noEntitiesJson)).cacheAfter).get "paris" 1000000000 =
      some sampleSuggestion := by
  decide

/-- Closed witness for C8 (amended): the concrete entry written by the
enrichment path carries no expiry. -/
theorem fetchBingEntities_cacheAfter_no_expiry_witness :
    (⟨"paris", sampleSuggestion, none⟩ : CacheEntry).expireAt = none :=
  fetchBingEntities_cacheAfter_no_expiry NodeCache.new 0 [sampleSuggestion]
    (fun _ => some noEntitiesJson) rfl (by simp [NodeCache.new])
    ⟨"paris", sampleSuggestion, none⟩ (by decide)

/-- C9: a rate-limit error envelope on the enrichment call still runs
the rest of the callback, which writes the plain suggestion into the
cache under the suggestion title; a subsequent request for that title is
a cache hit that returns it and triggers no further enrichment
fetch. -/
theorem rate_limited_enrichment_caches_plain (c : NodeCache) (now t : Nat)
    (s : EdgeSuggestion) (json : EntityJson) (r2 : String → Option EntityJson)
    (hmiss : c.get s.title now = none) (httl : c.stdTTL = 0)
    (ht : json.jsonType = "ErrorResponse")
    (hc : json.errors.head? = some "RateLimitExceeded")
    (he : json.entities = none) :
    (fetchBingEntities c now [s] (fun _ => some json)).fetchedTitles = [s.title] ∧
    (fetchBingEntities c now [s] (fun _ => some json)).cacheAfter.get s.title t = some s ∧
    (fetchBingEntities
        (fetchBingEntities c now [s] (fun _ => some json)).cacheAfter t [s] r2).results =
      [s] ∧
    (fetchBingEntities
        (fetchBingEntities c now [s] (fun _ => some json)).cacheAfter t [s]
        r2).fullyEnhanced = true ∧
    (fetchBingEntities
        (fetchBingEntities c now [s] (fun _ => some json)).cacheAfter t [s]
        r2).fetchedTitles = [] := by
  have hcb : entityCallback s.title s json =
      (["Bing search API rate limit exceeded"], some s) := by
    unfold entityCallback entityBody
    rw [ht, hc, he]
    simp
  have hca : (fetchBingEntities c now [s] (fun _ => some json)).cacheAfter =
      c.set s.title s now := by
    simp [fetchBingEntities, entityLoop, hmiss, applyCallbacks, hcb]
  have hget := NodeCache.get_set_self c httl s.title s now t
  refine ⟨?_, ?_, ?_, ?_, ?_⟩
  · simp [fetchBingEntities, entityLoop, hmiss]
  · rw [hca]; exact hget
  · rw [hca]; simp [fetchBingEntities, entityLoop, hget]
  · rw [hca]; simp [fetchBingEntities, entityLoop, hget]
  · rw [hca]; simp [fetchBingEntities, entityLoop, hget]

/-- Closed witness for C9 at a concrete rate-limited envelope. -/
theorem rate_limited_enrichment_caches_plain_witness :
    (fetchBingEntities NodeCache.new 0 [sampleSuggestion]
        (fun _ => some rateLimitJson)).fetchedTitles = ["paris"] ∧
    (fetchBingEntities NodeCache.new 0 [sampleSuggestion]
        (fun _ => some rateLimitJson)).cacheAfter.get "paris" 7 = some sampleSuggestion ∧
    (fetchBingEntities
        (fetchBingEntities NodeCache.new 0 [sampleSuggestion]
          (fun _ => some rateLimitJson)).cacheAfter 7 [sampleSuggestion]
        (fun _ => none)).fetchedTitles = [] := by
  have h := rate_limited_enrichment_caches_plain NodeCache.new 0 7 sampleSuggestion
    rateLimitJson (fun _ => none) rfl rfl rfl rfl rfl
  exact ⟨h.1, h.2.1, h.2.2.2.2⟩

/-- C10: an enrichment response whose `entities.value` is empty, and one
whose first entity lacks `entityPresentationInfo`, make the callback
throw before `cache.set`; no entry is written for the title, the next
lookup still misses, and a subsequent identical request issues the
enrichment fetch again. -/
theorem empty_entities_callback_throws_no_write :
    entityCallback "paris" sampleSuggestion emptyEntitiesJson = ([], none) ∧
    entityCallback "paris" sampleSuggestion noInfoEntityJson = ([], none) ∧
    (fetchBingEntities NodeCache.new 0 [sampleSuggestion]
        (fun _ => some emptyEntitiesJson)).cacheAfter = NodeCache.new ∧
    (fetchBingEntities NodeCache.new 0 [sampleSuggestion]
        (fun _ => some emptyEntitiesJson)).cacheAfter.get "paris" 5 = none ∧
    (fetchBingEntities
        (fetchBingEntities NodeCache.new 0 [sampleSuggestion]
          (fun _ => some emptyEntitiesJson)).cacheAfter 5 [sampleSuggestion]
        (fun _ => some emptyEntitiesJson)).fetchedTitles = ["paris"] := by
  decide
